import Mathlib

/-
Verification of the shell-auditor event pipeline: the audit store
(package audit: AuditEvent, Auditor, FileLogger, RotatingLogger) and the
BPF event codec (package bpf: ParseExecveEvent, ParseConnectEvent,
ipToString, bytesToString).  Go machine integers are modelled as Nat/Int
with explicit reduction modulo 2^32 where the source computes in uint32;
Go slice expressions that can fault are modelled in an Except monad whose
error constructor stands for a Go runtime panic.
-/

namespace ShellAuditor

/-- EventType from audit.go: the closed set of event kind tags. -/
inductive EventType
  | command
  | portOpen
  | network
  | dns
  | file
  deriving DecidableEq, Repr

/-- PortDetails from audit.go. -/
structure PortDetails where
  protocol : String
  port : Int
  address : String
  deriving DecidableEq, Repr

/-- NetworkDetails from audit.go. -/
structure NetworkDetails where
  protocol : String
  srcIP : String
  srcPort : Int
  dstIP : String
  dstPort : Int
  deriving DecidableEq, Repr

/-- DNSDetails from audit.go. -/
structure DNSDetails where
  domain : String
  resolved : String
  dnsType : String
  deriving DecidableEq, Repr

/-- The Details field of AuditEvent is an interface value in Go: nil, or one
of the three kind-specific payloads. -/
inductive Details
  | noDetails
  | port (d : PortDetails)
  | network (d : NetworkDetails)
  | dns (d : DNSDetails)
  deriving DecidableEq, Repr

/-- AuditEvent from audit.go.  Timestamp (time.Time in Go) is modelled as a
Nat capture tick; ExitCode is an int whose zero value doubles as the
JSON-absent state via the omitempty tag. -/
structure AuditEvent where
  timestamp : Nat
  type : EventType
  pid : Int
  ppid : Int
  uid : Int
  gid : Int
  username : String
  command : String
  args : List String
  exitCode : Int
  workingDir : String
  details : Details
  deriving DecidableEq, Repr

/-- JSON values appearing in a marshalled AuditEvent line. -/
inductive Jv
  | str (s : String)
  | int (n : Int)
  | time (t : Nat)
  | strs (l : List String)
  | det (d : Details)
  deriving DecidableEq, Repr

/-- The wire string for each EventType constant in audit.go. -/
def eventTypeStr : EventType → String
  | .command => "command"
  | .portOpen => "port_open"
  | .network => "network"
  | .dns => "dns"
  | .file => "file"

/-- Marshalling of AuditEvent by encoding/json, read off the struct tags in
audit.go: fields appear in struct order; Command, Args, ExitCode,
WorkingDir and Details carry omitempty, so they are dropped when they hold
their zero value (empty string, empty slice, integer 0, nil interface). -/
def jsonFields (e : AuditEvent) : List (String × Jv) :=
  [("timestamp", Jv.time e.timestamp),
   ("type", Jv.str (eventTypeStr e.type)),
   ("pid", Jv.int e.pid),
   ("ppid", Jv.int e.ppid),
   ("uid", Jv.int e.uid),
   ("gid", Jv.int e.gid),
   ("username", Jv.str e.username)]
  ++ (if e.command = "" then [] else [("command", Jv.str e.command)])
  ++ (if e.args = [] then [] else [("args", Jv.strs e.args)])
  ++ (if e.exitCode = 0 then [] else [("exit_code", Jv.int e.exitCode)])
  ++ (if e.workingDir = "" then [] else [("working_dir", Jv.str e.workingDir)])
  ++ (match e.details with
      | Details.noDetails => []
      | d => [("details", Jv.det d)])

/-- The set of keys present on the JSON line for an event. -/
def jsonKeys (e : AuditEvent) : List String :=
  (jsonFields e).map Prod.fst

/-- A Go runtime panic reachable from the modelled code. -/
inductive GoPanic
  | sliceBounds
  deriving DecidableEq, Repr

/-- Errors returned (not panicked) by the modelled code. -/
inductive GoError
  | fileClosed
  deriving DecidableEq, Repr

/-- Go slice expression l[lo:hi]: yields the sub-list when the bounds are
ordered and inside the slice, otherwise a runtime panic. -/
def goSlice {α : Type} (l : List α) (lo hi : Nat) : Except GoPanic (List α) :=
  if lo ≤ hi ∧ hi ≤ l.length then Except.ok ((l.take hi).drop lo)
  else Except.error GoPanic.sliceBounds

/-- Auditor from audit.go.  The logger interface value is modelled by
whether one is attached and whether its file has been closed; dispatched
records the by-value copies handed to the async persistence goroutines. -/
structure Auditor where
  events : List AuditEvent
  maxSize : Nat
  hasLogger : Bool
  loggerClosed : Bool
  dispatched : List AuditEvent
  deriving DecidableEq, Repr

/-- NewAuditor from audit.go: a non-positive maxSize is replaced by the
default 10000. -/
def NewAuditor (hasLogger : Bool) (maxSize : Int) : Auditor :=
  { events := [],
    maxSize := if maxSize ≤ 0 then 10000 else maxSize.toNat,
    hasLogger := hasLogger,
    loggerClosed := false,
    dispatched := [] }

/-- Auditor.log from audit.go: under the write lock, evict the oldest event
(the Go slice a.events[1:]) once the window is at capacity, append the new
event, and hand a copy of it to the logger goroutine when a logger is
attached.  The returned option is the result the async FileLogger.Log call
eventually produces (a closed-file error when the logger was closed). -/
def Auditor.log (a : Auditor) (event : AuditEvent) :
    Except GoPanic (Auditor × Option GoError) :=
  match (if a.events.length ≥ a.maxSize
         then goSlice a.events 1 a.events.length
         else Except.ok a.events) with
  | Except.error p => Except.error p
  | Except.ok evs =>
    if a.hasLogger then
      Except.ok ({ a with events := evs ++ [event],
                          dispatched := a.dispatched ++ [event] },
                 if a.loggerClosed then some GoError.fileClosed else none)
    else
      Except.ok ({ a with events := evs ++ [event] }, none)

/-- The match condition of the scan in Auditor.LogCommandExit: a Command
event for this pid whose stored exit code is still the zero value. -/
def isOpenCommand (pid : Int) (e : AuditEvent) : Bool :=
  e.type == EventType.command && e.pid == pid && e.exitCode == 0

/-- The backwards scan of Auditor.LogCommandExit, acting on the reversed
event window: update the first match and stop. -/
def setExitFromEnd (pid exitCode : Int) : List AuditEvent → List AuditEvent
  | [] => []
  | e :: rest =>
    if isOpenCommand pid e then { e with exitCode := exitCode } :: rest
    else e :: setExitFromEnd pid exitCode rest

/-- Auditor.LogCommandExit from audit.go: walk the window from the most
recent event to the oldest, set the exit code on the first Command event
matching the pid whose exit code is still 0, and stop. -/
def LogCommandExit (a : Auditor) (pid exitCode : Int) : Auditor :=
  { a with events := (setExitFromEnd pid exitCode a.events.reverse).reverse }

/-- Auditor.GetEvents from audit.go: a copy of the window in insertion
order. -/
def Auditor.GetEvents (a : Auditor) : List AuditEvent :=
  a.events

/-- Auditor.GetEventsByPID from audit.go. -/
def Auditor.GetEventsByPID (a : Auditor) (pid : Int) : List AuditEvent :=
  a.events.filter (fun e => e.pid == pid)

/-- Auditor.Close from audit.go: delegates to the logger when one is
attached; FileLogger.Close closes the underlying os.File, and a second
close of the same file returns the os closed-file error without crashing. -/
def AuditorClose (a : Auditor) : Option GoError × Auditor :=
  if a.hasLogger then
    (if a.loggerClosed then some GoError.fileClosed else none,
     { a with loggerClosed := true })
  else
    (none, a)

/-- The public mutating calls of the Auditor, one constructor per exported
method.  The four append calls carry the capture time (time.Now() in Go) as
an explicit input; LogCommandExit reads no clock. -/
inductive Op
  | logCommand (ts : Nat) (pid ppid uid gid : Int) (username command : String)
      (args : List String) (workingDir : String)
  | logPortOpen (ts : Nat) (pid uid gid : Int) (username protocol : String)
      (port : Int) (address : String)
  | logNetwork (ts : Nat) (pid uid gid : Int) (username protocol : String)
      (srcIP : String) (srcPort : Int) (dstIP : String) (dstPort : Int)
  | logDNS (ts : Nat) (pid uid gid : Int) (username domain resolved dnsType : String)
  | logCommandExit (pid exitCode : Int)
  deriving DecidableEq, Repr

/-- Whether an operation is one of the four append calls. -/
def Op.isAppend : Op → Bool
  | .logCommandExit _ _ => false
  | _ => true

/-- The AuditEvent each append call constructs, exactly as LogCommand,
LogPortOpen, LogNetwork and LogDNS build it in audit.go (unset fields keep
their Go zero values); none for LogCommandExit, which appends nothing. -/
def opEvent : Op → Option AuditEvent
  | .logCommand ts pid ppid uid gid un cmd args wd =>
      some { timestamp := ts, type := EventType.command, pid := pid, ppid := ppid,
             uid := uid, gid := gid, username := un, command := cmd, args := args,
             exitCode := 0, workingDir := wd, details := Details.noDetails }
  | .logPortOpen ts pid uid gid un proto port addr =>
      some { timestamp := ts, type := EventType.portOpen, pid := pid, ppid := 0,
             uid := uid, gid := gid, username := un, command := "", args := [],
             exitCode := 0, workingDir := "",
             details := Details.port { protocol := proto, port := port, address := addr } }
  | .logNetwork ts pid uid gid un proto sip sport dip dport =>
      some { timestamp := ts, type := EventType.network, pid := pid, ppid := 0,
             uid := uid, gid := gid, username := un, command := "", args := [],
             exitCode := 0, workingDir := "",
             details := Details.network { protocol := proto, srcIP := sip,
                                          srcPort := sport, dstIP := dip, dstPort := dport } }
  | .logDNS ts pid uid gid un dom res ty =>
      some { timestamp := ts, type := EventType.dns, pid := pid, ppid := 0,
             uid := uid, gid := gid, username := un, command := "", args := [],
             exitCode := 0, workingDir := "",
             details := Details.dns { domain := dom, resolved := res, dnsType := ty } }
  | .logCommandExit _ _ => none

/-- Run Auditor.log and keep the post state, propagating a panic. -/
def logStep (a : Auditor) (e : AuditEvent) : Except GoPanic Auditor :=
  match a.log e with
  | Except.error p => Except.error p
  | Except.ok (a2, _) => Except.ok a2

/-- One public call against the store. -/
def applyOp (a : Auditor) (op : Op) : Except GoPanic Auditor :=
  match op with
  | Op.logCommandExit pid ec => Except.ok (LogCommandExit a pid ec)
  | op2 =>
    match opEvent op2 with
    | some e => logStep a e
    | none => Except.ok a

/-- A sequence of public calls against the store, stopping at a panic. -/
def applyOps (a : Auditor) : List Op → Except GoPanic Auditor
  | [] => Except.ok a
  | op :: rest =>
    match applyOp a op with
    | Except.error p => Except.error p
    | Except.ok a2 => applyOps a2 rest

/-- The events a store built from NewAuditor holds after a call sequence
(empty when the run panicked, which never happens from NewAuditor). -/
def eventsAfter (ops : List Op) : List AuditEvent :=
  match applyOps (NewAuditor false 10000) ops with
  | Except.ok a => a.events
  | Except.error _ => []

/-- The AuditEvents an append sequence constructs, in call order. -/
def opsEvents (ops : List Op) : List AuditEvent :=
  ops.filterMap opEvent

/-- A default event used only to read list elements in concrete tests. -/
def dfltEv : AuditEvent :=
  { timestamp := 0, type := EventType.command, pid := 0, ppid := 0, uid := 0,
    gid := 0, username := "", command := "", args := [], exitCode := 0,
    workingDir := "", details := Details.noDetails }

/-- The raw byte strings of the Go code (Go string values built from byte
slices); bytes are Nats below 256. -/
abbrev GoStr : Type := List Nat

/-- The uint32 modulus. -/
def u32 : Nat := 4294967296

/-- ExecveEvent from bpf.go: the fixed-layout command record.  The fixed
arrays Comm[16], Args[512] and WorkingDir[256] are byte lists of those
lengths on real records. -/
structure ExecveEvent where
  pid : Nat
  ppid : Nat
  uid : Nat
  gid : Nat
  comm : List Nat
  argCount : Nat
  args : List Nat
  workingDir : List Nat
  deriving DecidableEq, Repr

/-- bytesToString from bpf.go: the bytes up to the first zero byte, or the
whole buffer when no zero byte occurs. -/
def bytesToString (b : List Nat) : GoStr :=
  b.takeWhile (fun c => c ≠ 0)

/-- binary.LittleEndian.Uint32 on the four bytes at the given offset. -/
def readU32LE (l : List Nat) (off : Nat) : Nat :=
  l.getD off 0 % 256
  + 256 * (l.getD (off + 1) 0 % 256)
  + 65536 * (l.getD (off + 2) 0 % 256)
  + 16777216 * (l.getD (off + 3) 0 % 256)

/-- The argument loop of ParseExecveEvent from bpf.go.  offset and the
length prefix are uint32 values, so every sum is reduced modulo 2^32 as Go
computes it; the slice argData[offset : offset+strLen] panics when the
wrapped upper bound falls below the lower one. -/
def parseArgsLoop (argData : List Nat) : Nat → Nat → Except GoPanic (List GoStr)
  | 0, _ => Except.ok []
  | count + 1, offset =>
    if offset ≥ argData.length then Except.ok []
    else if (offset + 4) % u32 > argData.length then Except.ok []
    else
      let strLen := readU32LE argData offset
      let off2 := (offset + 4) % u32
      if (off2 + strLen) % u32 > argData.length then Except.ok []
      else
        match goSlice argData off2 ((off2 + strLen) % u32) with
        | Except.error p => Except.error p
        | Except.ok bytes =>
          match parseArgsLoop argData count ((off2 + strLen) % u32) with
          | Except.error p => Except.error p
          | Except.ok rest => Except.ok (bytesToString bytes :: rest)

/-- ParseExecveEvent from bpf.go: decode the NUL-terminated fixed fields
and run the length-prefixed argument loop over the 512-byte region. -/
def ParseExecveEvent (e : ExecveEvent) : Except GoPanic (GoStr × List GoStr × GoStr) :=
  match parseArgsLoop e.args e.argCount 0 with
  | Except.error p => Except.error p
  | Except.ok args => Except.ok (bytesToString e.comm, args, bytesToString e.workingDir)

/-- A syntactically well-formed record whose first argument length prefix
is ff ff ff ff: the little-endian length 4294967295 wraps the uint32 bound
check and the argument slice faults. -/
def overflowEvent : ExecveEvent :=
  { pid := 1, ppid := 1, uid := 0, gid := 0,
    comm := 108 :: 115 :: List.replicate 14 0,
    argCount := 1,
    args := [255, 255, 255, 255] ++ List.replicate 508 0,
    workingDir := 47 :: List.replicate 255 0 }

/-- A record whose first argument decodes cleanly and whose second length
prefix is fe ff ff ff, wrapping the bound check mid-run. -/
def overflowEvent2 : ExecveEvent :=
  { pid := 2, ppid := 1, uid := 0, gid := 0,
    comm := 108 :: 115 :: List.replicate 14 0,
    argCount := 2,
    args := [2, 0, 0, 0, 108, 115, 254, 255, 255, 255] ++ List.replicate 502 0,
    workingDir := 47 :: List.replicate 255 0 }

/-- Decimal rendering of one IPv4 octet (Go uitoa). -/
def decStr (n : Nat) : String :=
  Nat.repr n

/-- The dotted rendering net.IPv4(a, b, c, d).String() produces. -/
def ipv4String (a b c d : Nat) : String :=
  decStr a ++ "." ++ decStr b ++ "." ++ decStr c ++ "." ++ decStr d

/-- One lowercase hex digit, as in the net package digit table. -/
def hexDigitChar (n : Nat) : Char :=
  if n < 10 then Char.ofNat (48 + n) else Char.ofNat (87 + n)

/-- appendHex from the net package: hex digits of a group with leading
zeros stripped, a single 0 for the zero group. -/
def hexStr (i : Nat) : String :=
  if i = 0 then "0"
  else String.mk ((List.range 8).reverse.filterMap (fun j =>
    let v := i / 16 ^ j
    if v > 0 then some (hexDigitChar (v % 16)) else none))

/-- The eight 16-bit groups of a 16-byte IPv6 address, high byte first. -/
def ip6Groups (b : List Nat) : List Nat :=
  (List.range 8).map (fun i => 256 * b.getD (2 * i) 0 + b.getD (2 * i + 1) 0)

/-- The zero-run scan of net.IP.String: the start and length of the
earliest longest run of zero groups (strictly longer runs win). -/
def bestZeroRunAux : List Nat → Nat → Option Nat → Nat × Nat → Nat × Nat
  | [], pos, curStart, best =>
    match curStart with
    | some s => if pos - s > best.2 then (s, pos - s) else best
    | none => best
  | g :: rest, pos, curStart, best =>
    if g = 0 then
      bestZeroRunAux rest (pos + 1) (some (curStart.getD pos)) best
    else
      match curStart with
      | some s =>
        bestZeroRunAux rest (pos + 1) none
          (if pos - s > best.2 then (s, pos - s) else best)
      | none => bestZeroRunAux rest (pos + 1) none best

/-- Start and length of the compressible zero run of a group list. -/
def bestZeroRun (gs : List Nat) : Nat × Nat :=
  bestZeroRunAux gs 0 none (0, 0)

/-- The group-printing loop of net.IP.String, with e0 and e1 the group
bounds of the run compressed to a double colon (8 when there is none). -/
def ip6RenderFrom (gs : List Nat) (e0 e1 : Nat) : Nat → Nat → String
  | 0, _ => ""
  | fuel + 1, i =>
    if i ≥ 8 then ""
    else if i = e0 then
      "::" ++ (if e1 ≥ 8 then ""
               else hexStr (gs.getD e1 0) ++ ip6RenderFrom gs e0 e1 fuel (e1 + 1))
    else
      (if i > 0 then ":" else "") ++ hexStr (gs.getD i 0)
        ++ ip6RenderFrom gs e0 e1 fuel (i + 1)

/-- net.IP.String on a 16-byte address that is not IPv4-mapped: RFC 5952
grouping with the earliest longest zero run of at least two groups
compressed.  A run of a single group is not compressed. -/
def ipv6String (b : List Nat) : String :=
  let gs := ip6Groups b
  let run := bestZeroRun gs
  if run.2 ≤ 1 then ip6RenderFrom gs 9 9 16 0
  else ip6RenderFrom gs run.1 (run.1 + run.2) 16 0

/-- ipToString from bpf.go: the literal twelve-byte test for the
IPv4-mapped prefix chooses dotted rendering of the last four bytes, any
other pattern is rendered as an IPv6 literal. -/
def ipToString (b : List Nat) : String :=
  if b.getD 0 0 = 0 ∧ b.getD 1 0 = 0 ∧ b.getD 2 0 = 0 ∧ b.getD 3 0 = 0
     ∧ b.getD 4 0 = 0 ∧ b.getD 5 0 = 0 ∧ b.getD 6 0 = 0 ∧ b.getD 7 0 = 0
     ∧ b.getD 8 0 = 0 ∧ b.getD 9 0 = 0 ∧ b.getD 10 0 = 255 ∧ b.getD 11 0 = 255
  then ipv4String (b.getD 12 0) (b.getD 13 0) (b.getD 14 0) (b.getD 15 0)
  else ipv6String b

/-- The IPv4-mapped prefix condition as the specification words it: first
ten bytes zero, bytes 10 and 11 equal 0xff. -/
def isV4MappedPrefix (b : List Nat) : Prop :=
  (∀ i < 10, b.getD i 0 = 0) ∧ b.getD 10 0 = 255 ∧ b.getD 11 0 = 255

instance (b : List Nat) : Decidable (isV4MappedPrefix b) := by
  unfold isV4MappedPrefix
  infer_instance

/-- The 16-bit byte swap the BPF producer applies to the network-order
port before the record reaches the Go codec (get_ip_addr in trace.c). -/
def bswap16 (v : Nat) : Nat :=
  v % 256 * 256 + v / 256 % 256

/-- A network-order port field read by the pipeline: the two wire bytes
are read as the host (little-endian) uint16 and byte-swapped by the
producer; ParseConnectEvent then takes the integer value unchanged. -/
def wirePortToInt (b0 b1 : Nat) : Nat :=
  bswap16 (b0 % 256 + 256 * (b1 % 256))

/-- The IPv4-mapped example buffer 00*10 ff ff c0 a8 01 01. -/
def mappedExample : List Nat :=
  List.replicate 10 0 ++ [255, 255, 192, 168, 1, 1]

/-- RotatingLogger from logger.go.  A file is its name and the sizes of
the whole-event writes it received; current is the open file (always
present once the constructor has run). -/
structure RotatingLogger where
  basePath : String
  maxSize : Nat
  currentSize : Nat
  current : Option (String × List Nat)
  closedFiles : List (String × List Nat)
  deriving DecidableEq, Repr

/-- RotatingLogger.rotate from logger.go: close the current file when one
is open, open a file named basePath.timestamp.log, and zero the byte
counter.  The timestamp (time.Now().Format in Go) is an explicit input. -/
def rlRotate (rl : RotatingLogger) (ts : String) : RotatingLogger :=
  { rl with
    closedFiles := match rl.current with
                   | none => rl.closedFiles
                   | some f => rl.closedFiles ++ [f],
    current := some (rl.basePath ++ "." ++ ts ++ ".log", []),
    currentSize := 0 }

/-- NewRotatingLogger from logger.go: a non-positive megabyte limit is
replaced by the default 100, the limit is converted to bytes, and an
initial rotation opens the first file. -/
def NewRotatingLogger (basePath : String) (maxSizeMB : Int) (ts : String) : RotatingLogger :=
  let mb : Nat := if maxSizeMB ≤ 0 then 100 else maxSizeMB.toNat
  rlRotate { basePath := basePath, maxSize := mb * 1048576, currentSize := 0,
             current := none, closedFiles := [] } ts

/-- RotatingLogger.Log from logger.go: rotate first when the marshalled
size would push the counter past the limit, then write the event and its
newline as one write and add its size to the counter. -/
def rlLog (rl : RotatingLogger) (dataLen : Nat) (ts : String) : RotatingLogger :=
  let rl2 := if rl.currentSize + dataLen > rl.maxSize then rlRotate rl ts else rl
  { rl2 with
    current := match rl2.current with
               | none => none
               | some (n, ws) => some (n, ws ++ [dataLen + 1]),
    currentSize := rl2.currentSize + dataLen + 1 }

/-- The name of the open file, empty before construction. -/
def rlCurrentName (rl : RotatingLogger) : String :=
  match rl.current with
  | some (n, _) => n
  | none => ""

/-- The writes received by the open file. -/
def rlCurrentWrites (rl : RotatingLogger) : List Nat :=
  match rl.current with
  | some (_, ws) => ws
  | none => []

/-- Every write the logger has performed, over all files in order. -/
def rlAllWrites (rl : RotatingLogger) : List Nat :=
  (rl.closedFiles.map Prod.snd).flatten ++ rlCurrentWrites rl

/-- The lock each Auditor method acquires, read off audit.go: log takes
mu.Lock, LogCommandExit takes mu.RLock, the two readers take mu.RLock,
Close takes no lock. -/
inductive LockMode
  | exclusive
  | shared
  | noLock
  deriving DecidableEq, Repr

/-- The methods of the Auditor that touch the event window. -/
inductive StoreMethod
  | logInternal
  | logCommandExit
  | getEvents
  | getEventsByPID
  | close
  deriving DecidableEq, Repr

/-- Lock discipline of each method as written in audit.go. -/
def lockModeOf : StoreMethod → LockMode
  | .logInternal => LockMode.exclusive
  | .logCommandExit => LockMode.shared
  | .getEvents => LockMode.shared
  | .getEventsByPID => LockMode.shared
  | .close => LockMode.noLock

/-- Whether the method writes the event window (append, evict, or the
exit-code store in LogCommandExit). -/
def mutatesWindow : StoreMethod → Bool
  | .logInternal => true
  | .logCommandExit => true
  | _ => false

/-- Two commands for pid 5 followed by the same exit correlation twice. -/
def c1ops : List Op :=
  [Op.logCommand 0 5 1 0 0 "u" "ls" [] "/",
   Op.logCommand 1 5 1 0 0 "u" "cat" [] "/",
   Op.logCommandExit 5 1,
   Op.logCommandExit 5 1]

/-- An open command event for pid 5. -/
def cmdEvA : AuditEvent :=
  { dfltEv with pid := 5 }

/-- A later open command event for pid 5. -/
def cmdEvB : AuditEvent :=
  { dfltEv with timestamp := 1, pid := 5 }

/-- A store holding two open commands for pid 5. -/
def auditorTwoCmds : Auditor :=
  { events := [cmdEvA, cmdEvB], maxSize := 10, hasLogger := false,
    loggerClosed := false, dispatched := [] }

/-- Three appends against a window of capacity two. -/
def c2ops : List Op :=
  [Op.logPortOpen 0 1 0 0 "u" "tcp" 80 "0.0.0.0",
   Op.logPortOpen 1 2 0 0 "u" "tcp" 81 "0.0.0.0",
   Op.logPortOpen 2 3 0 0 "u" "udp" 53 "0.0.0.0"]

/-- A command for pid 1234 whose exit is correlated with exit code 0. -/
def c4ops : List Op :=
  [Op.logCommand 0 1234 1 0 0 "user" "ls" ["-l"] "/home",
   Op.logCommandExit 1234 0]

/-- A rotating logger with a one-megabyte threshold. -/
def rlEx : RotatingLogger :=
  NewRotatingLogger "audit" 1 "t0"

/-- The store a call sequence leaves behind when run with a logger
attached (the initial store when the run panicked, which it never does). -/
def auditorAfter (ops : List Op) : Auditor :=
  match applyOps (NewAuditor true 10000) ops with
  | Except.ok a => a
  | Except.error _ => NewAuditor true 10000

/-- A command appended with a logger attached, then its exit correlated
with a nonzero exit code. -/
def c10ops : List Op :=
  [Op.logCommand 0 9 1 0 0 "u" "make" [] "/src",
   Op.logCommandExit 9 2]

/- ===== Shared lemmas ===== -/

lemma setExitFromEnd_append (pid n : Int) (l rest : List AuditEvent)
    (h : ∀ e ∈ l, isOpenCommand pid e = false) :
    setExitFromEnd pid n (l ++ rest) = l ++ setExitFromEnd pid n rest := by
  induction l with
  | nil => simp
  | cons e t ih =>
    have he : isOpenCommand pid e = false := h e (List.mem_cons_self e t)
    simp only [List.cons_append, setExitFromEnd, he, Bool.false_eq_true, if_false]
    show e :: setExitFromEnd pid n (t ++ rest) = e :: (t ++ setExitFromEnd pid n rest)
    rw [ih (fun x hx => h x (List.mem_cons_of_mem e hx))]

lemma setExitFromEnd_nomatch (pid n : Int) (l : List AuditEvent)
    (h : ∀ e ∈ l, isOpenCommand pid e = false) :
    setExitFromEnd pid n l = l := by
  have := setExitFromEnd_append pid n l [] h
  simpa [setExitFromEnd] using this

lemma isOpenCommand_iff (pid : Int) (e : AuditEvent) :
    isOpenCommand pid e = true ↔
      e.type = EventType.command ∧ e.pid = pid ∧ e.exitCode = 0 := by
  simp [isOpenCommand, Bool.and_eq_true, and_assoc]

lemma setExitFromEnd_zero (pid : Int) (l : List AuditEvent) :
    setExitFromEnd pid 0 l = l := by
  induction l with
  | nil => rfl
  | cons e t ih =>
    by_cases h : isOpenCommand pid e = true
    · have hec : e.exitCode = 0 := ((isOpenCommand_iff pid e).mp h).2.2
      have : { e with exitCode := 0 } = e := by
        cases e
        simp_all
      simp [setExitFromEnd, h, this]
    · simp at h
      simp [setExitFromEnd, h, ih]

lemma exit_code_mem (e : AuditEvent) :
    ("exit_code" ∈ jsonKeys e) ↔ e.exitCode ≠ 0 := by
  rcases e with ⟨ts, ty, pid, ppid, uid, gid, un, cmd, args, ec, wd, det⟩
  by_cases h : ec = 0 <;>
    cases det <;>
      simp [jsonKeys, jsonFields, h] <;>
        split_ifs <;> simp_all

lemma log_ok (a : Auditor) (e : AuditEvent) (hM : 1 ≤ a.maxSize) :
    a.log e = Except.ok
      ({ a with
         events := (if a.events.length ≥ a.maxSize then a.events.drop 1 else a.events) ++ [e],
         dispatched := if a.hasLogger then a.dispatched ++ [e] else a.dispatched },
       if a.hasLogger ∧ a.loggerClosed then some GoError.fileClosed else none) := by
  rcases a with ⟨evs, M, hl, lc, disp⟩
  simp only [Auditor.log, goSlice] at *
  by_cases hlen : evs.length ≥ M
  · have h1 : 1 ≤ evs.length := le_trans hM hlen
    rw [if_pos hlen]
    rw [if_pos ⟨h1, le_refl _⟩]
    cases hl <;> cases lc <;> simp [hlen, List.take_length]
  · rw [if_neg hlen]
    cases hl <;> cases lc <;> simp [hlen]

lemma NewAuditor_maxSize_pos (hl : Bool) (m : Int) : 1 ≤ (NewAuditor hl m).maxSize := by
  simp only [NewAuditor]
  split
  · omega
  · rename_i h
    omega

/-- Folding Auditor.log over a list of already-built events. -/
def foldLog (a : Auditor) : List AuditEvent → Except GoPanic Auditor
  | [] => Except.ok a
  | e :: rest =>
    match logStep a e with
    | Except.error p => Except.error p
    | Except.ok a1 => foldLog a1 rest

lemma applyOps_eq_foldLog (ops : List Op) :
    ∀ a : Auditor, (∀ op ∈ ops, op.isAppend = true) →
      applyOps a ops = foldLog a (opsEvents ops) := by
  induction ops with
  | nil => intro a _; rfl
  | cons op rest ih =>
    intro a hall
    have hop : op.isAppend = true := hall op (List.mem_cons_self _ _)
    have hrest : ∀ x ∈ rest, x.isAppend = true :=
      fun x hx => hall x (List.mem_cons_of_mem _ hx)
    cases op
    case logCommandExit p c => simp [Op.isAppend] at hop
    all_goals
      simp only [applyOps, applyOp, opEvent, opsEvents, List.filterMap_cons, foldLog]
    all_goals
      cases hls : logStep a _ with
      | error p => simp
      | ok a1 => simpa [opsEvents] using ih a1 hrest

lemma drop_window_cons {α : Type} (x ev : α) (w2 t : List α) (M : Nat)
    (hM : w2.length + 1 = M) :
    List.drop ((w2 ++ [ev]).length + t.length - M) ((w2 ++ [ev]) ++ t)
      = List.drop ((x :: w2).length + (ev :: t).length - M) ((x :: w2) ++ (ev :: t)) := by
  simp only [List.length_append, List.length_cons, List.length_nil, Nat.zero_add,
    List.append_assoc, List.singleton_append, List.cons_append, List.nil_append]
  have hi1 : w2.length + 1 + t.length - M = t.length := by omega
  have hi2 : w2.length + 1 + (t.length + 1) - M = t.length + 1 := by omega
  rw [hi1, hi2, List.drop_succ_cons]

lemma drop_window_app {α : Type} (ev : α) (w t : List α) (M : Nat) :
    List.drop ((w ++ [ev]).length + t.length - M) ((w ++ [ev]) ++ t)
      = List.drop (w.length + (ev :: t).length - M) (w ++ (ev :: t)) := by
  simp only [List.length_append, List.length_cons, List.length_nil, Nat.zero_add,
    List.append_assoc, List.singleton_append, List.nil_append]
  have hi : w.length + 1 + t.length - M = w.length + (t.length + 1) - M := by omega
  rw [hi]

lemma fold_window (evs : List AuditEvent) :
    ∀ a : Auditor, 1 ≤ a.maxSize → a.events.length ≤ a.maxSize →
      ∃ a2, foldLog a evs = Except.ok a2 ∧
        a2.maxSize = a.maxSize ∧
        a2.events = (a.events ++ evs).drop (a.events.length + evs.length - a.maxSize) ∧
        a2.events.length ≤ a.maxSize := by
  induction evs with
  | nil =>
    intro a h1 h2
    refine ⟨a, rfl, rfl, ?_, h2⟩
    simp only [List.append_nil, List.length_nil, Nat.add_zero]
    rw [Nat.sub_eq_zero_of_le h2]
    simp
  | cons ev rest ih =>
    intro a h1 h2
    have hls : logStep a ev = Except.ok
        ({ a with
           events := (if a.events.length ≥ a.maxSize then a.events.drop 1 else a.events) ++ [ev],
           dispatched := if a.hasLogger then a.dispatched ++ [ev] else a.dispatched }) := by
      simp only [logStep, log_ok a ev h1]
    by_cases hc : a.events.length ≥ a.maxSize
    · have hM : a.events.length = a.maxSize := le_antisymm h2 hc
      obtain ⟨x, w2, hw⟩ : ∃ x w2, a.events = x :: w2 := by
        cases hev : a.events with
        | nil => rw [hev] at hM; simp at hM; omega
        | cons x w2 => exact ⟨x, w2, rfl⟩
      have hM2 : w2.length + 1 = a.maxSize := by
        rw [hw] at hM
        simpa using hM
      rw [if_pos hc] at hls
      have hlen1 : (a.events.drop 1 ++ [ev]).length ≤ a.maxSize := by
        rw [hw]
        simp only [List.drop_succ_cons, List.drop_zero, List.length_append,
          List.length_singleton]
        omega
      obtain ⟨a2, ha2, hmax, hevs, hlen⟩ := ih
        { a with events := a.events.drop 1 ++ [ev],
                 dispatched := if a.hasLogger then a.dispatched ++ [ev] else a.dispatched }
        h1 hlen1
      refine ⟨a2, ?_, hmax, ?_, hlen⟩
      · simp only [foldLog, hls]
        exact ha2
      · rw [hevs]
        show List.drop ((a.events.drop 1 ++ [ev]).length + rest.length - a.maxSize)
              ((a.events.drop 1 ++ [ev]) ++ rest)
            = List.drop (a.events.length + (ev :: rest).length - a.maxSize)
              (a.events ++ (ev :: rest))
        rw [hw]
        simp only [List.drop_succ_cons, List.drop_zero]
        exact drop_window_cons x ev w2 rest a.maxSize hM2
    · rw [if_neg hc] at hls
      push_neg at hc
      have hlen1 : (a.events ++ [ev]).length ≤ a.maxSize := by
        simp only [List.length_append, List.length_singleton]
        omega
      obtain ⟨a2, ha2, hmax, hevs, hlen⟩ := ih
        { a with events := a.events ++ [ev],
                 dispatched := if a.hasLogger then a.dispatched ++ [ev] else a.dispatched }
        h1 hlen1
      refine ⟨a2, ?_, hmax, ?_, hlen⟩
      · simp only [foldLog, hls]
        exact ha2
      · rw [hevs]
        show List.drop ((a.events ++ [ev]).length + rest.length - a.maxSize)
              ((a.events ++ [ev]) ++ rest)
            = List.drop (a.events.length + (ev :: rest).length - a.maxSize)
              (a.events ++ (ev :: rest))
        exact drop_window_app ev a.events rest a.maxSize

lemma log_ok_dispatched (a : Auditor) (e : AuditEvent) (a1 : Auditor) (r : Option GoError)
    (h : a.log e = Except.ok (a1, r)) :
    a1.dispatched = a.dispatched ∨ a1.dispatched = a.dispatched ++ [e] := by
  simp only [Auditor.log] at h
  split at h
  · exact absurd h (by simp)
  · split at h
    · simp only [Except.ok.injEq, Prod.mk.injEq] at h
      right
      rw [← h.1]
    · simp only [Except.ok.injEq, Prod.mk.injEq] at h
      left
      rw [← h.1]

lemma logStep_dispatched (a : Auditor) (ev : AuditEvent) (a1 : Auditor)
    (h : logStep a ev = Except.ok a1) :
    a1.dispatched = a.dispatched ∨ a1.dispatched = a.dispatched ++ [ev] := by
  simp only [logStep] at h
  cases hlog : a.log ev with
  | error p =>
    rw [hlog] at h
    exact absurd h (by simp)
  | ok pr =>
    obtain ⟨a2, r⟩ := pr
    rw [hlog] at h
    simp only [Except.ok.injEq] at h
    subst h
    exact log_ok_dispatched a ev a2 r hlog

lemma applyOp_dispatched_inv (a : Auditor) (op : Op) (a1 : Auditor)
    (h : applyOp a op = Except.ok a1)
    (hinv : ∀ e ∈ a.dispatched, e.type = EventType.command → e.exitCode = 0) :
    ∀ e ∈ a1.dispatched, e.type = EventType.command → e.exitCode = 0 := by
  cases op
  case logCommandExit p c =>
    simp only [applyOp, Except.ok.injEq] at h
    subst h
    exact hinv
  all_goals
    simp only [applyOp, opEvent] at h
    intro e he hty
    rcases logStep_dispatched a _ a1 h with hd | hd
    · rw [hd] at he
      exact hinv e he hty
    · rw [hd] at he
      rcases List.mem_append.mp he with h2 | h2
      · exact hinv e h2 hty
      · rw [List.mem_singleton] at h2
        subst h2
        rfl

lemma applyOps_dispatched_inv (ops : List Op) :
    ∀ a a2 : Auditor,
      (∀ e ∈ a.dispatched, e.type = EventType.command → e.exitCode = 0) →
      applyOps a ops = Except.ok a2 →
      ∀ e ∈ a2.dispatched, e.type = EventType.command → e.exitCode = 0 := by
  induction ops with
  | nil =>
    intro a a2 hinv h
    simp only [applyOps, Except.ok.injEq] at h
    subst h
    exact hinv
  | cons op rest ih =>
    intro a a2 hinv h
    simp only [applyOps] at h
    cases hap : applyOp a op with
    | error p =>
      rw [hap] at h
      exact absurd h (by simp)
    | ok a1 =>
      rw [hap] at h
      exact ih a1 a2 (applyOp_dispatched_inv a op a1 hap hinv) h

lemma opsEvents_length (ops : List Op) (h : ∀ op ∈ ops, op.isAppend = true) :
    (opsEvents ops).length = ops.length := by
  induction ops with
  | nil => rfl
  | cons op rest ih =>
    have hop : op.isAppend = true := h op (List.mem_cons_self _ _)
    have hr := ih (fun x hx => h x (List.mem_cons_of_mem _ hx))
    cases op
    case logCommandExit p c => simp [Op.isAppend] at hop
    all_goals
      simp only [opsEvents, List.filterMap_cons, opEvent, List.length_cons] at hr ⊢
    all_goals
      rw [hr]

/- ===== Claim theorems ===== -/

/-- C1 (amended): LogCommandExit(pid, n) sets the exit code of exactly the
most recently appended Command event for that pid whose stored exit code is
0 (the representation of absent) and leaves every other event unchanged; it
is a no-op when no such event exists, and a repeated call is a no-op only
when the exit code is 0 — the code cannot tell a backfilled exit code 0
from an absent one, so a repeated call with a nonzero code moves on to the
next older matching command. -/
theorem claim1_theorem :
    (∀ (a : Auditor) (pid n : Int),
        (∀ e ∈ a.events, isOpenCommand pid e = false) → LogCommandExit a pid n = a) ∧
    (∀ (a : Auditor) (pid n : Int) (l₁ l₂ : List AuditEvent) (c : AuditEvent),
        a.events = l₁ ++ c :: l₂ → isOpenCommand pid c = true →
        (∀ e ∈ l₂, isOpenCommand pid e = false) →
        (LogCommandExit a pid n).events = l₁ ++ { c with exitCode := n } :: l₂) ∧
    (∀ (a : Auditor) (pid : Int), LogCommandExit a pid 0 = a) := by
  refine ⟨?_, ?_, ?_⟩
  · intro a pid n h
    have h2 : setExitFromEnd pid n a.events.reverse = a.events.reverse :=
      setExitFromEnd_nomatch pid n _ (fun e he => h e (List.mem_reverse.mp he))
    simp only [LogCommandExit, h2, List.reverse_reverse]
  · intro a pid n l₁ l₂ c hev hc hl₂
    simp only [LogCommandExit, hev, List.reverse_append, List.reverse_cons,
      List.append_assoc]
    rw [setExitFromEnd_append pid n l₂.reverse _
      (fun e he => hl₂ e (List.mem_reverse.mp he))]
    rw [List.singleton_append]
    simp only [setExitFromEnd, hc, if_true]
    simp [List.reverse_append, List.reverse_cons, List.append_assoc]
  · intro a pid
    simp only [LogCommandExit, setExitFromEnd_zero, List.reverse_reverse]

/-- C1 counterexample: with two open commands for pid 5, the first call of
LogCommandExit(5, 1) leaves the older command untouched, but the second
identical call — with no new command in between — sets the older command
as well, so the second call is not a no-op. -/
theorem claim1_counterexample :
    ((eventsAfter (c1ops.take 3)).getD 0 dfltEv).exitCode = 0 ∧
    ((eventsAfter c1ops).getD 0 dfltEv).exitCode = 1 := by
  decide

/-- C1 witness: on a store with two open commands for pid 5, the amended
theorem instantiated at the most recent one. -/
theorem claim1_witness :
    (LogCommandExit auditorTwoCmds 5 7).events = [cmdEvA] ++ { cmdEvB with exitCode := 7 } :: [] :=
  claim1_theorem.2.1 auditorTwoCmds 5 7 [cmdEvA] [] cmdEvB (by rfl) (by decide)
    (by simp)

/-- C2: starting from NewAuditor, any sequence of append calls leaves a
snapshot holding exactly the most recently appended events in order, never
more than maxSize of them, and exactly maxSize once the sequence is longer
than maxSize; a single append on a full window drops exactly the oldest
event. -/
theorem claim2_theorem (hl : Bool) (m : Int) (ops : List Op)
    (h : ∀ op ∈ ops, op.isAppend = true) :
    (∃ a2, applyOps (NewAuditor hl m) ops = Except.ok a2 ∧
       a2.GetEvents = (opsEvents ops).drop (ops.length - (NewAuditor hl m).maxSize) ∧
       a2.GetEvents.length ≤ (NewAuditor hl m).maxSize ∧
       (ops.length > (NewAuditor hl m).maxSize →
         a2.GetEvents.length = (NewAuditor hl m).maxSize)) ∧
    (∀ (b : Auditor) (e : AuditEvent), 1 ≤ b.maxSize → b.events.length = b.maxSize →
       ∃ r, b.log e = Except.ok r ∧ r.fst.events = b.events.drop 1 ++ [e]) := by
  constructor
  · have h1 := NewAuditor_maxSize_pos hl m
    have h2 : (NewAuditor hl m).events.length ≤ (NewAuditor hl m).maxSize :=
      Nat.zero_le _
    obtain ⟨a2, ha, hmax, hevs, hlen⟩ := fold_window (opsEvents ops) (NewAuditor hl m) h1 h2
    have hev0 : (NewAuditor hl m).events = [] := rfl
    rw [hev0, List.nil_append, List.length_nil, Nat.zero_add] at hevs
    have hol := opsEvents_length ops h
    rw [hol] at hevs
    refine ⟨a2, ?_, ?_, hlen, ?_⟩
    · rw [applyOps_eq_foldLog ops (NewAuditor hl m) h]
      exact ha
    · exact hevs
    · intro hgt
      have hld : a2.events.length
          = (opsEvents ops).length - (ops.length - (NewAuditor hl m).maxSize) := by
        rw [hevs]
        exact List.length_drop _ _
      rw [hol] at hld
      show a2.events.length = (NewAuditor hl m).maxSize
      omega
  · intro b e h1 h2
    refine ⟨_, log_ok b e h1, ?_⟩
    show (if b.events.length ≥ b.maxSize then b.events.drop 1 else b.events) ++ [e]
        = b.events.drop 1 ++ [e]
    rw [if_pos h2.ge]

/-- C2 witness: three appends against a window of capacity two keep
exactly the last two events. -/
theorem claim2_witness :
    (∀ op ∈ c2ops, op.isAppend = true) ∧
    ∃ a2, applyOps (NewAuditor false 2) c2ops = Except.ok a2 ∧
      a2.GetEvents = (opsEvents c2ops).drop (c2ops.length - (NewAuditor false 2).maxSize) ∧
      a2.GetEvents.length ≤ (NewAuditor false 2).maxSize ∧
      (c2ops.length > (NewAuditor false 2).maxSize →
        a2.GetEvents.length = (NewAuditor false 2).maxSize) :=
  ⟨by decide, (claim2_theorem false 2 c2ops (by decide)).1⟩

set_option maxRecDepth 20000 in
/-- C3 (code bug): ParseExecveEvent is not total — an argument length
prefix of ff ff ff ff makes the uint32 bound check offset+strLen wrap to
3, which passes the 512-byte comparison, and the slice
argData[4 : 3] then faults at run time instead of yielding a partial
value. -/
theorem claim3_codebug :
    ParseExecveEvent overflowEvent = Except.error GoPanic.sliceBounds := by
  rfl

set_option maxRecDepth 20000 in
/-- C5 (code bug): the length-prefixed run decodes as described while the
arithmetic stays in range — the first argument of the record decodes to
"ls" — but a later length prefix of fe ff ff ff wraps the uint32 bound
check and the slice faults instead of stopping silently. -/
theorem claim5_codebug :
    ParseExecveEvent { overflowEvent2 with argCount := 1 } =
        Except.ok ([108, 115], [[108, 115]], [47]) ∧
    ParseExecveEvent overflowEvent2 = Except.error GoPanic.sliceBounds := by
  constructor <;> rfl

/-- C4 (amended): the JSON line of an event carries the exit_code key
exactly when the stored exit code is nonzero; an event built by LogCommand
never carries it, and a backfill with a nonzero code n makes the key
present with value n.  A backfill with exit code 0 leaves the key absent,
because the omitempty tag cannot tell a backfilled 0 from an absent
value. -/
theorem claim4_theorem :
    (∀ e : AuditEvent, ("exit_code" ∈ jsonKeys e) ↔ e.exitCode ≠ 0) ∧
    (∀ (ts : Nat) (pid ppid uid gid : Int) (un cmd : String) (args : List String)
        (wd : String) (e : AuditEvent),
        opEvent (Op.logCommand ts pid ppid uid gid un cmd args wd) = some e →
        "exit_code" ∉ jsonKeys e) ∧
    (∀ (e : AuditEvent) (n : Int), n ≠ 0 →
        ("exit_code", Jv.int n) ∈ jsonFields { e with exitCode := n }) := by
  refine ⟨exit_code_mem, ?_, ?_⟩
  · intro ts pid ppid uid gid un cmd args wd e he
    simp only [opEvent, Option.some.injEq] at he
    subst he
    rw [exit_code_mem]
    simp
  · intro e n hn
    simp [jsonFields, hn]

/-- C4 counterexample: a command for pid 1234 is open, its exit is
correlated with exit value 0, and the serialized line still lacks the
exit_code key — refuting that the key is present after backfill with any
exit value. -/
theorem claim4_counterexample :
    isOpenCommand 1234 ((eventsAfter (c4ops.take 1)).getD 0 dfltEv) = true ∧
    "exit_code" ∉ jsonKeys ((eventsAfter c4ops).getD 0 dfltEv) := by
  decide

/-- C4 witness: a backfilled nonzero exit code 7 appears on the line. -/
theorem claim4_witness :
    (7 : Int) ≠ 0 ∧ ("exit_code", Jv.int 7) ∈ jsonFields { dfltEv with exitCode := 7 } :=
  ⟨by decide, claim4_theorem.2.2 dfltEv 7 (by decide)⟩

/-- C6: a 16-byte buffer renders as a dotted IPv4 address exactly when the
first ten bytes are zero and bytes 10 and 11 are 0xff (taking the last
four bytes as the octets), and as an IPv6 literal otherwise; the example
buffer 00*10 ff ff c0 a8 01 01 renders as 192.168.1.1 and the
network-order port bytes 0x1F 0x90 reach the codec as 8080. -/
theorem claim6_theorem (b : List Nat) (h : b.length = 16) :
    (isV4MappedPrefix b →
        ipToString b = ipv4String (b.getD 12 0) (b.getD 13 0) (b.getD 14 0) (b.getD 15 0)) ∧
    (¬ isV4MappedPrefix b → ipToString b = ipv6String b) ∧
    ipToString mappedExample = "192.168.1.1" ∧
    wirePortToInt 31 144 = 8080 := by
  refine ⟨?_, ?_, by decide, by decide⟩
  · intro hp
    obtain ⟨hz, h10, h11⟩ := hp
    unfold ipToString
    rw [if_pos]
    exact ⟨hz 0 (by omega), hz 1 (by omega), hz 2 (by omega), hz 3 (by omega),
           hz 4 (by omega), hz 5 (by omega), hz 6 (by omega), hz 7 (by omega),
           hz 8 (by omega), hz 9 (by omega), h10, h11⟩
  · intro hn
    unfold ipToString
    rw [if_neg]
    intro hcond
    apply hn
    obtain ⟨h0, h1, h2, h3, h4, h5, h6, h7, h8, h9, h10, h11⟩ := hcond
    refine ⟨?_, h10, h11⟩
    intro i hi
    interval_cases i <;> assumption

/-- C6 witness: the example buffer satisfies the prefix condition and the
theorem renders it as the dotted form of its last four bytes. -/
theorem claim6_witness :
    mappedExample.length = 16 ∧ isV4MappedPrefix mappedExample ∧
    ipToString mappedExample
      = ipv4String (mappedExample.getD 12 0) (mappedExample.getD 13 0)
        (mappedExample.getD 14 0) (mappedExample.getD 15 0) :=
  ⟨by decide, by decide, (claim6_theorem mappedExample (by decide)).1 (by decide)⟩

/-- C7: when a write would push the byte counter past the threshold the
logger first rotates to a file named basePath.timestamp.log and the new
counter equals the size of that single write with no carried overflow;
otherwise the file is kept and the counter grows by the write size; every
write lands whole in exactly one file; the default threshold is 100 MiB. -/
theorem claim7_theorem :
    (∀ (rl : RotatingLogger) (d : Nat) (ts : String),
        rl.currentSize + d > rl.maxSize →
        rlCurrentName (rlLog rl d ts) = rl.basePath ++ "." ++ ts ++ ".log" ∧
        (rlLog rl d ts).currentSize = d + 1 ∧
        rlCurrentWrites (rlLog rl d ts) = [d + 1]) ∧
    (∀ (rl : RotatingLogger) (d : Nat) (ts : String),
        rl.currentSize + d ≤ rl.maxSize →
        rlCurrentName (rlLog rl d ts) = rlCurrentName rl ∧
        (rlLog rl d ts).currentSize = rl.currentSize + d + 1) ∧
    (∀ (rl : RotatingLogger) (d : Nat) (ts : String), rl.current.isSome = true →
        rlAllWrites (rlLog rl d ts) = rlAllWrites rl ++ [d + 1]) ∧
    (NewRotatingLogger "audit" 0 "t").maxSize = 104857600 := by
  refine ⟨?_, ?_, ?_, by decide⟩
  · intro rl d ts hgt
    refine ⟨?_, ?_, ?_⟩ <;>
      simp [rlLog, rlRotate, rlCurrentName, rlCurrentWrites, hgt]
  · intro rl d ts hle
    have hng : ¬ (rl.currentSize + d > rl.maxSize) := not_lt.mpr hle
    refine ⟨?_, ?_⟩
    · cases hcur : rl.current with
      | none => simp [rlLog, hng, rlCurrentName, hcur]
      | some f =>
        obtain ⟨n, ws⟩ := f
        simp [rlLog, hng, rlCurrentName, hcur]
    · simp [rlLog, hng]
  · intro rl d ts hsome
    obtain ⟨⟨n, ws⟩, hcur⟩ : ∃ f, rl.current = some f := Option.isSome_iff_exists.mp hsome
    by_cases hgt : rl.currentSize + d > rl.maxSize
    · simp [rlLog, rlRotate, hgt, hcur, rlAllWrites, rlCurrentWrites, List.append_assoc]
    · simp [rlLog, hgt, hcur, rlAllWrites, rlCurrentWrites, List.append_assoc]

/-- C7 witness: a 1 MiB logger rotates for a write that would cross the
threshold, names the new file from the capture timestamp, and starts its
counter at the size of that single write. -/
theorem claim7_witness :
    rlEx.currentSize + 1048577 > rlEx.maxSize ∧
    (rlCurrentName (rlLog rlEx 1048577 "t1") = rlEx.basePath ++ "." ++ "t1" ++ ".log" ∧
     (rlLog rlEx 1048577 "t1").currentSize = 1048577 + 1 ∧
     rlCurrentWrites (rlLog rlEx 1048577 "t1") = [1048577 + 1]) :=
  ⟨by decide, claim7_theorem.1 rlEx 1048577 "t1" (by decide)⟩

/-- C8: closing the store twice leaves the same closed state as closing it
once, and an append after close still returns without fault — the event is
accepted into the window and the asynchronous sink write reports the
closed-file error instead of crashing. -/
theorem claim8_theorem :
    (∀ a : Auditor, (AuditorClose (AuditorClose a).2).2 = (AuditorClose a).2) ∧
    (∀ (a : Auditor) (e : AuditEvent), 1 ≤ a.maxSize →
        ∃ a2 r, (AuditorClose a).2.log e = Except.ok (a2, r) ∧
          (∃ front, a2.events = front ++ [e]) ∧
          (a.hasLogger = true → r = some GoError.fileClosed)) := by
  constructor
  · intro a
    by_cases hl : a.hasLogger <;> simp [AuditorClose, hl]
  · intro a e h1
    have h1c : 1 ≤ (AuditorClose a).2.maxSize := by
      by_cases hl : a.hasLogger <;> simpa [AuditorClose, hl] using h1
    refine ⟨_, _, log_ok (AuditorClose a).2 e h1c, ⟨_, rfl⟩, ?_⟩
    intro hl
    have hl2 : (AuditorClose a).2.hasLogger = true := by simp [AuditorClose, hl]
    have hc2 : (AuditorClose a).2.loggerClosed = true := by simp [AuditorClose, hl]
    rw [if_pos ⟨hl2, hc2⟩]

/-- C8 witness: closing a fresh store and appending afterwards. -/
theorem claim8_witness :
    1 ≤ (NewAuditor true 10000).maxSize ∧
    ∃ a2 r, (AuditorClose (NewAuditor true 10000)).2.log dfltEv = Except.ok (a2, r) ∧
      (∃ front, a2.events = front ++ [dfltEv]) ∧
      ((NewAuditor true 10000).hasLogger = true → r = some GoError.fileClosed) :=
  ⟨by decide, claim8_theorem.2 (NewAuditor true 10000) dfltEv (by decide)⟩

/-- C9 (code bug): LogCommandExit mutates the event window while holding
only the shared read lock, so not every window mutation runs under the
exclusive lock as the claim requires — concurrent correlations race and a
reader can observe a mid-mutation state. -/
theorem claim9_codebug :
    mutatesWindow StoreMethod.logCommandExit = true ∧
    lockModeOf StoreMethod.logCommandExit = LockMode.shared ∧
    ¬ (∀ m : StoreMethod, mutatesWindow m = true → lockModeOf m = LockMode.exclusive) := by
  refine ⟨rfl, rfl, fun hall => ?_⟩
  have := hall StoreMethod.logCommandExit rfl
  exact absurd this (by decide)

/-- C10: the sink receives a by-value copy taken at append time, so a
later LogCommandExit changes only the window slot and never the dispatched
copy; every dispatched command event therefore serializes without the
exit_code key, whatever backfills happen afterwards. -/
theorem claim10_theorem :
    (∀ (a : Auditor) (pid n : Int), (LogCommandExit a pid n).dispatched = a.dispatched) ∧
    (∀ (hl : Bool) (m : Int) (ops : List Op) (a2 : Auditor),
        applyOps (NewAuditor hl m) ops = Except.ok a2 →
        ∀ e ∈ a2.dispatched, e.type = EventType.command → "exit_code" ∉ jsonKeys e) := by
  constructor
  · intro a pid n
    rfl
  · intro hl m ops a2 h e he hty
    have hec : e.exitCode = 0 :=
      applyOps_dispatched_inv ops (NewAuditor hl m) a2
        (fun x hx => absurd hx (List.not_mem_nil x)) h e he hty
    rw [exit_code_mem]
    exact fun hc => hc hec

/-- C10 witness: after a command append and a nonzero exit correlation,
the dispatched copy still serializes without the exit_code key. -/
theorem claim10_witness :
    ("exit_code" ∈ jsonKeys ((auditorAfter c10ops).dispatched.getD 0 dfltEv)) = False :=
  eq_false (claim10_theorem.2 true 10000 c10ops (auditorAfter c10ops) (by rfl)
    ((auditorAfter c10ops).dispatched.getD 0 dfltEv) (by decide) (by decide))

end ShellAuditor







